import Mathlib

/-!
Verification development for the media-downloader core in `src/main.py`
(job store `DatabaseManager`, orchestrator `YTDLPManager`, progress parser
`YTDLPManager.parse_progress`).

The Python source is shallowly embedded: pure code becomes Lean functions,
the stateful orchestrator becomes explicit state passing over `MgrState`
plus a step function over an `Event` alphabet whose constructors correspond
to the atomic blocks of the source (one `update_download` call, one
registration into `active_downloads`, ...).  Python floats parsed from
decimal literals are modelled as exact rationals (`ℚ`); SQL `NULL` for a
text column is modelled as `""` except for `completed_at`, where the
set/unset distinction matters and an `Option String` is used.
-/

namespace YT

/-! ### Characters and small scanners used by the regexes of `parse_progress` -/

/-- Python's `\s` character class (re module, ASCII relevant subset for
process output lines). -/
def isSpaceChar (c : Char) : Bool :=
  c = ' ' || c = '\t' || c = '\n' || c = '\x0b' || c = '\x0c' || c = '\r'

/-- The `[0-9.]` character class of the speed regex. -/
def isNumDot (c : Char) : Bool := c.isDigit || c = '.'

/-- The `[0-9:]` character class of the ETA regex. -/
def isDigitColon (c : Char) : Bool := c.isDigit || c = ':'

/-- `litHere pat cs` holds when `pat` is literally the next characters of
`cs` (a literal regex fragment matching at the current position). -/
def litHere : List Char → List Char → Bool
  | [], _ => true
  | _ :: _, [] => false
  | p :: ps, c :: cs => p = c && litHere ps cs

/-- Substring containment, `pat in s` of Python (`'[download]' in output`,
line 348 of `src/main.py`). -/
def containsSub : List Char → List Char → Bool
  | pat, [] => litHere pat []
  | pat, c :: cs => litHere pat (c :: cs) || containsSub pat cs

/-- `re.search` semantics: try the anchored matcher `f` at every position,
left to right, and return the leftmost success. -/
def scanFirst {α : Type} (f : List Char → Option α) : List Char → Option α
  | [] => f []
  | c :: cs =>
    match f (c :: cs) with
    | some r => some r
    | none => scanFirst f cs

/-- Anchored match of `(\d+\.?\d*)%` (line 350).  Returns the integer and
fraction digit lists of the captured group.  Greedy matching with
backtracking of this pattern at a fixed position succeeds exactly when a
maximal digit run is followed by `%`, or by `.`, a further maximal digit
run and `%`; the captured group is the greedy one. -/
def pctHere (cs : List Char) : Option (List Char × List Char) :=
  let d1 := cs.takeWhile Char.isDigit
  if d1.isEmpty then none
  else
    match cs.drop d1.length with
    | '%' :: _ => some (d1, [])
    | '.' :: r2 =>
      let d2 := r2.takeWhile Char.isDigit
      match r2.drop d2.length with
      | '%' :: _ => some (d1, d2)
      | _ => none
    | _ => none

/-- Anchored match of `at\s+([0-9.]+[KMG]?iB/s)` (line 355), returning the
captured group.  The `[0-9.]+` run is maximal (a shorter run would leave a
digit or dot where `[KMG]` or `i` is required), likewise `\s+`. -/
def speedHere (cs : List Char) : Option String :=
  match cs with
  | 'a' :: 't' :: rest =>
    let ws := rest.takeWhile isSpaceChar
    if ws.isEmpty then none
    else
      let r1 := rest.drop ws.length
      let num := r1.takeWhile isNumDot
      if num.isEmpty then none
      else
        let r2 := r1.drop num.length
        match r2 with
        | c :: r3 =>
          if (c = 'K' || c = 'M' || c = 'G') && litHere "iB/s".data r3 then
            some (String.mk (num ++ c :: "iB/s".data))
          else if litHere "iB/s".data r2 then
            some (String.mk (num ++ "iB/s".data))
          else none
        | [] => none
  | _ => none

/-- Anchored match of `ETA\s+([0-9:]+)` (line 359), returning the captured
group. -/
def etaHere (cs : List Char) : Option String :=
  match cs with
  | 'E' :: 'T' :: 'A' :: rest =>
    let ws := rest.takeWhile isSpaceChar
    if ws.isEmpty then none
    else
      let tok := (rest.drop ws.length).takeWhile isDigitColon
      if tok.isEmpty then none else some (String.mk tok)
  | _ => none

/-- Numeric value of a digit string. -/
def digitsToNat (ds : List Char) : Nat :=
  ds.foldl (fun n c => 10 * n + (c.toNat - '0'.toNat)) 0

/-- `float` applied to the captured percentage group, as an exact rational:
`float("45.2")` modelled as `45.2 = 452/10`.  The integer case is split off
(same value) so that whole-number percentages stay kernel-reducible. -/
def pctValue (d1 d2 : List Char) : ℚ :=
  if d2.isEmpty then (digitsToNat d1 : ℚ)
  else (digitsToNat d1 : ℚ) + (digitsToNat d2 : ℚ) / (10 ^ d2.length : ℚ)

/-- A parsed progress event: the tuple written to the job store by
`parse_progress` (lines 352-360). -/
structure ProgressEvent where
  percentage : ℚ
  speed : String
  eta : String
deriving DecidableEq, Repr

/-- The pure core of `YTDLPManager.parse_progress` (lines 344-374): a line
of subprocess output yields an update exactly when it contains
`[download]` and `re.search(r'(\d+\.?\d*)%', output)` matches; speed and
ETA are optional and default to the empty string. -/
def parse_progress_event (output : String) : Option ProgressEvent :=
  if containsSub "[download]".data output.data then
    (scanFirst pctHere output.data).map (fun pr =>
      { percentage := pctValue pr.1 pr.2
        speed := (scanFirst speedHere output.data).getD ""
        eta := (scanFirst etaHere output.data).getD "" })
  else none

example : parse_progress_event "WARNING: some unrelated message" = none := by decide

example : parse_progress_event "[download] Destination: video.mp4" = none := by decide

example : parse_progress_event "[download]  50% of 3.00MiB" =
    some { percentage := ((50 : ℕ) : ℚ), speed := "", eta := "" } := by decide

/-! ### The job store (`DatabaseManager`) -/

/-- Status strings of a download record (`DownloadItem.status`, line 44). -/
inductive Status
  | pending
  | downloading
  | completed
  | failed
  | paused
  | cancelled
deriving DecidableEq, Repr

/-- A persisted download record, restricted to the columns the orchestrator
reads or writes (the remaining columns — title, platform, quality, … — are
written once at insertion and never touched by `YTDLPManager`; the generic
row model below covers arbitrary columns).  Defaults mirror the Python
dataclass defaults (lines 32-51).  `completed_at` is `Option` because SQL
`NULL` versus a set timestamp matters to the claims; for the other text
columns `NULL` is modelled as `""`. -/
structure DownloadItem where
  url : String := ""
  format_id : String := ""
  file_path : String := ""
  progress : ℚ := 0
  status : Status := .pending
  completed_at : Option String := none
  speed : String := ""
  eta : String := ""
  error_message : String := ""
deriving DecidableEq, Repr

/-- `SELECT * FROM downloads WHERE id = ?` on an association-list table:
the first row whose key matches (`get_download_by_id`, lines 169-186). -/
def dbLookup {α : Type} : List (Nat × α) → Nat → Option α
  | [], _ => none
  | p :: ps, id => if p.1 = id then some p.2 else dbLookup ps id

/-- `UPDATE downloads SET … WHERE id = ?`: rewrites every row whose key
matches with `f`, leaving every other row untouched (`update_download`,
lines 132-141). -/
def dbUpdate {α : Type} : List (Nat × α) → Nat → (α → α) → List (Nat × α)
  | [], _, _ => []
  | p :: ps, id, f =>
    (if p.1 = id then (p.1, f p.2) else p) :: dbUpdate ps id f

theorem dbLookup_dbUpdate {α : Type} (db : List (Nat × α)) (id j : Nat)
    (f : α → α) :
    dbLookup (dbUpdate db id f) j =
      if j = id then (dbLookup db j).map f else dbLookup db j := by
  induction db with
  | nil => simp [dbLookup, dbUpdate, apply_ite (Option.map f)]
  | cons p ps ih =>
    by_cases hpid : p.1 = id
    · by_cases hpj : p.1 = j
      · have hj : j = id := hpj.symm.trans hpid
        simp [dbLookup, dbUpdate, hpid, hpj, hj]
      · have hij : ¬ id = j := fun h => hpj (hpid.trans h)
        simp [dbLookup, dbUpdate, hpid, hpj, hij, ih]
    · by_cases hpj : p.1 = j
      · have hji : ¬ j = id := fun h => hpid (hpj.trans h)
        simp [dbLookup, dbUpdate, hpid, hpj, hji]
      · simp [dbLookup, dbUpdate, hpid, hpj, ih]

/-! ### The orchestrator (`YTDLPManager`)

State of one `YTDLPManager` together with its `DatabaseManager`.  `active`
and `threads` are the key sets of the dicts `active_downloads` and
`download_threads` (lines 213-214); the process/thread values themselves
are abstracted away.  `history` and `spawnArgs` are ghost instrumentation:
`history` records, most recent first, every status value passed to
`update_download`, and `spawnArgs` records the `(id, url, format_id,
output_path)` arguments of every admitted `start_download` call; neither
influences any transition. -/

structure MgrState where
  db : List (Nat × DownloadItem)
  active : Finset Nat
  threads : Finset Nat
  maxConcurrent : Nat
  history : List (Nat × Status)
  spawnArgs : List (Nat × String × String × String)
deriving DecidableEq

/-- Job creation: `SnapTubeApp.start_download` builds a `DownloadItem` with
`status="pending"` (lines 895-907) and `DatabaseManager.add_download`
inserts it, omitting the `completed_at`, `speed`, `eta` and
`error_message` columns (lines 112-130), so they stay NULL. -/
def add_download (σ : MgrState) (id : Nat) (url fmt path : String) :
    MgrState :=
  { σ with db := σ.db ++ [(id, { url := url, format_id := fmt,
                                 file_path := path })] }

/-- `YTDLPManager.start_download` (lines 258-262, 336-342): reject when
`len(self.active_downloads) >= self.max_concurrent`, otherwise register
the worker thread and return `True`.  The spawned worker's own actions are
separate events below (they run asynchronously after the call returns). -/
def start_download (σ : MgrState) (id : Nat) (url fmt path : String) :
    Bool × MgrState :=
  if σ.active.card ≥ σ.maxConcurrent then (false, σ)
  else (true, { σ with threads := insert id σ.threads,
                       spawnArgs := (id, url, fmt, path) :: σ.spawnArgs })

/-- Worker line 266: `update_download(download_id, status='downloading')`. -/
def worker_mark_downloading (σ : MgrState) (id : Nat) : MgrState :=
  { σ with db := dbUpdate σ.db id (fun r => { r with status := .downloading }),
           history := (id, .downloading) :: σ.history }

/-- Worker lines 284-293: the subprocess is spawned and registered in
`active_downloads`. -/
def worker_register (σ : MgrState) (id : Nat) : MgrState :=
  { σ with active := insert id σ.active }

/-- Worker lines 319-324, the `except` branch: any exception raised while
spawning or reading is caught and converted to
`update_download(download_id, status='failed', error_message=str(e))`. -/
def worker_fail (σ : MgrState) (id : Nat) (msg : String) : MgrState :=
  { σ with db := dbUpdate σ.db id
             (fun r => { r with status := .failed, error_message := msg }),
           history := (id, .failed) :: σ.history }

/-- Worker lines 296-302 with `parse_progress` (344-374): one loop
iteration on an output line; on a parsed event the progress, speed and eta
fields are merged into the store, otherwise nothing happens. -/
def worker_read_line (σ : MgrState) (id : Nat) (line : String) : MgrState :=
  match parse_progress_event line with
  | some ev =>
    { σ with db := dbUpdate σ.db id
               (fun r => { r with progress := ev.percentage,
                                  speed := ev.speed, eta := ev.eta }) }
  | none => σ

/-- Worker lines 304-317, the final write after end-of-stream: exit code
zero marks the job completed with progress 100 and a completion timestamp;
any other exit code marks it failed with the generic detail.  The write is
unconditional on the job's current status. -/
def worker_finish (σ : MgrState) (id : Nat) (code : Int) (now : String) :
    MgrState :=
  if code = 0 then
    { σ with db := dbUpdate σ.db id
               (fun r => { r with status := .completed, progress := 100,
                                  completed_at := some now }),
             history := (id, .completed) :: σ.history }
  else
    { σ with db := dbUpdate σ.db id
               (fun r => { r with status := .failed,
                                  error_message := "Download failed" }),
             history := (id, .failed) :: σ.history }

/-- Worker lines 326-331, the `finally` block run on every exit path: the
job's entries are removed from `active_downloads` and `download_threads`. -/
def worker_cleanup (σ : MgrState) (id : Nat) : MgrState :=
  { σ with active := σ.active.erase id, threads := σ.threads.erase id }

/-- `pause_download` (lines 376-384): only if the job has a live process
association is SIGSTOP sent and the status set to paused. -/
def pause_download (σ : MgrState) (id : Nat) : MgrState :=
  if id ∈ σ.active then
    { σ with db := dbUpdate σ.db id (fun r => { r with status := .paused }),
             history := (id, .paused) :: σ.history }
  else σ

/-- `resume_download` (lines 386-394): only if the job has a live process
association is SIGCONT sent and the status set to downloading. -/
def resume_download (σ : MgrState) (id : Nat) : MgrState :=
  if id ∈ σ.active then
    { σ with db := dbUpdate σ.db id
               (fun r => { r with status := .downloading }),
             history := (id, .downloading) :: σ.history }
  else σ

/-- `cancel_download` (lines 396-404): only if the job has a live process
association is the process terminated and the status set to cancelled. -/
def cancel_download (σ : MgrState) (id : Nat) : MgrState :=
  if id ∈ σ.active then
    { σ with db := dbUpdate σ.db id
               (fun r => { r with status := .cancelled }),
             history := (id, .cancelled) :: σ.history }
  else σ

/-- `retry_download` (lines 406-416): fetch the record (any record — the
code only checks existence, not that the status is failed) and re-invoke
`start_download` with its stored url, format_id and file_path. -/
def retry_download (σ : MgrState) (id : Nat) : MgrState :=
  match dbLookup σ.db id with
  | some r => (start_download σ id r.url r.format_id r.file_path).2
  | none => σ

/-- The atomic blocks of the system, one constructor per code block; a
trace is any interleaving of caller operations and per-job worker steps. -/
inductive Event
  | add (id : Nat) (url fmt path : String)
  | startCall (id : Nat) (url fmt path : String)
  | markDownloading (id : Nat)
  | register (id : Nat)
  | spawnFail (id : Nat) (msg : String)
  | readLine (id : Nat) (line : String)
  | finish (id : Nat) (code : Int) (now : String)
  | cleanup (id : Nat)
  | pauseCall (id : Nat)
  | resumeCall (id : Nat)
  | cancelCall (id : Nat)
  | retryCall (id : Nat)

def step (σ : MgrState) : Event → MgrState
  | .add id url fmt path => add_download σ id url fmt path
  | .startCall id url fmt path => (start_download σ id url fmt path).2
  | .markDownloading id => worker_mark_downloading σ id
  | .register id => worker_register σ id
  | .spawnFail id msg => worker_fail σ id msg
  | .readLine id line => worker_read_line σ id line
  | .finish id code now => worker_finish σ id code now
  | .cleanup id => worker_cleanup σ id
  | .pauseCall id => pause_download σ id
  | .resumeCall id => resume_download σ id
  | .cancelCall id => cancel_download σ id
  | .retryCall id => retry_download σ id

/-- Run a trace of events, oldest first. -/
def run (σ : MgrState) (es : List Event) : MgrState := es.foldl step σ

/-- Number of rows whose status is `downloading` — the quantity §4.4 of
the specification bounds by the concurrency limit. -/
def downloadingCount (σ : MgrState) : Nat :=
  (σ.db.filter (fun p => p.2.status = Status.downloading)).length

/-! ### Supporting lemmas -/

theorem dbLookup_append {α : Type} (db1 db2 : List (Nat × α)) (id : Nat) :
    dbLookup (db1 ++ db2) id =
      match dbLookup db1 id with
      | some r => some r
      | none => dbLookup db2 id := by
  induction db1 with
  | nil => simp [dbLookup]
  | cons p ps ih =>
    by_cases hp : p.1 = id <;> simp [dbLookup, hp, ih]

theorem mem_dbUpdate {α : Type} (db : List (Nat × α)) (id : Nat) (f : α → α)
    (q : Nat × α) (hq : q ∈ dbUpdate db id f) :
    q ∈ db ∨ ∃ p, p ∈ db ∧ q = (p.1, f p.2) := by
  induction db with
  | nil => simp [dbUpdate] at hq
  | cons p ps ih =>
    simp only [dbUpdate, List.mem_cons] at hq
    rcases hq with hq | hq
    · by_cases hp : p.1 = id
      · right
        refine ⟨p, List.mem_cons_self p ps, ?_⟩
        simpa [hp] using hq
      · left
        rw [if_neg hp] at hq
        subst hq
        exact List.mem_cons_self _ _
    · rcases ih hq with h | ⟨p0, hp0, rfl⟩
      · exact Or.inl (List.mem_cons_of_mem _ h)
      · exact Or.inr ⟨p0, List.mem_cons_of_mem _ hp0, rfl⟩

theorem pctValue_nonneg (d1 d2 : List Char) : 0 ≤ pctValue d1 d2 := by
  unfold pctValue
  split
  · positivity
  · positivity

/-- Every event parsed out of an output line carries a nonnegative
percentage: the regex `(\d+\.?\d*)%` cannot capture a minus sign. -/
theorem parse_percentage_nonneg (line : String) (ev : ProgressEvent)
    (h : parse_progress_event line = some ev) : 0 ≤ ev.percentage := by
  unfold parse_progress_event at h
  split at h
  · rw [Option.map_eq_some'] at h
    obtain ⟨pr, _, hev⟩ := h
    rw [← hev]
    exact pctValue_nonneg pr.1 pr.2
  · exact absurd h (by simp)

/-- The record inserted for a fresh job (see `add_download`). -/
def freshItem (url fmt path : String) : DownloadItem :=
  { url := url, format_id := fmt, file_path := path }

/-- The field updates a single step may apply to a record: enough to carry
the progress and completion invariants through every event. -/
def GoodUpd (f : DownloadItem → DownloadItem) : Prop :=
  ∀ r, (0 ≤ r.progress → 0 ≤ (f r).progress) ∧
    ((f r).status = .completed →
      ((f r).progress = 100 ∧ (f r).completed_at ≠ none) ∨
      ((f r).status = r.status ∧ (f r).completed_at = r.completed_at))

/-- Classification of the effect of one event on the persisted table:
either it is untouched, or a fresh pending record is appended, or a single
row is rewritten by a `GoodUpd` field update. -/
theorem step_db_shape (σ : MgrState) (e : Event) :
    (step σ e).db = σ.db ∨
    (∃ id url fmt path,
        (step σ e).db = σ.db ++ [(id, freshItem url fmt path)]) ∨
    (∃ id f, (step σ e).db = dbUpdate σ.db id f ∧ GoodUpd f) := by
  cases e with
  | add id url fmt path =>
    exact Or.inr (Or.inl ⟨id, url, fmt, path, rfl⟩)
  | startCall id url fmt path =>
    left
    simp only [step, start_download]
    split <;> rfl
  | markDownloading id =>
    refine Or.inr (Or.inr ⟨id, _, rfl, ?_⟩)
    intro r
    exact ⟨fun h => h, fun h => by simp at h⟩
  | register id => exact Or.inl rfl
  | spawnFail id msg =>
    refine Or.inr (Or.inr ⟨id, _, rfl, ?_⟩)
    intro r
    exact ⟨fun h => h, fun h => by simp at h⟩
  | readLine id line =>
    simp only [step, worker_read_line]
    rcases hpe : parse_progress_event line with _ | ev
    · exact Or.inl rfl
    · refine Or.inr (Or.inr ⟨id, _, rfl, ?_⟩)
      intro r
      exact ⟨fun _ => parse_percentage_nonneg line ev hpe, fun _ => Or.inr ⟨rfl, rfl⟩⟩
  | finish id code now =>
    simp only [step, worker_finish]
    split
    · refine Or.inr (Or.inr ⟨id, _, rfl, ?_⟩)
      intro r
      exact ⟨fun _ => by norm_num, fun _ => Or.inl ⟨rfl, by simp⟩⟩
    · refine Or.inr (Or.inr ⟨id, _, rfl, ?_⟩)
      intro r
      exact ⟨fun h => h, fun h => by simp at h⟩
  | cleanup id => exact Or.inl rfl
  | pauseCall id =>
    simp only [step, pause_download]
    split
    · refine Or.inr (Or.inr ⟨id, _, rfl, ?_⟩)
      intro r
      exact ⟨fun h => h, fun h => by simp at h⟩
    · exact Or.inl rfl
  | resumeCall id =>
    simp only [step, resume_download]
    split
    · refine Or.inr (Or.inr ⟨id, _, rfl, ?_⟩)
      intro r
      exact ⟨fun h => h, fun h => by simp at h⟩
    · exact Or.inl rfl
  | cancelCall id =>
    simp only [step, cancel_download]
    split
    · refine Or.inr (Or.inr ⟨id, _, rfl, ?_⟩)
      intro r
      exact ⟨fun h => h, fun h => by simp at h⟩
    · exact Or.inl rfl
  | retryCall id =>
    left
    simp only [step, retry_download]
    rcases dbLookup σ.db id with _ | r
    · rfl
    · simp only [start_download]
      split <;> rfl

/-- A fresh manager state over a given table, with no live processes or
threads (a just-constructed `YTDLPManager`). -/
def mkInit (db : List (Nat × DownloadItem)) (maxC : Nat) : MgrState :=
  { db := db, active := ∅, threads := ∅, maxConcurrent := maxC,
    history := [], spawnArgs := [] }

/-! ### Claim theorems -/

def c1Init : MgrState :=
  mkInit [(1, freshItem "u1" "f1" "p1"), (2, freshItem "u2" "f2" "p2")] 1

/-- State after `start_download(1, …)` returned `True` and worker 1 has
executed line 266 but not yet line 293: job 1 is `downloading` while
`active_downloads` is still empty. -/
def c1Mid : MgrState :=
  worker_mark_downloading (start_download c1Init 1 "u1" "f1" "p1").2 1

/-- C1: the claimed admission bound fails on the code.  With the limit
configured to 1, after `start_download(1, …)` is admitted and its worker
has set job 1 to `downloading` (line 266) but has not yet registered the
process (line 293), the count of `downloading` jobs already equals the
limit; yet `start_download(2, …)` — whose gate (line 261) reads
`len(self.active_downloads)`, still 0 — returns `True` and changes state,
and after worker 2 runs line 266 two jobs are `downloading` under a limit
of 1. -/
theorem C1_admission_race :
    (start_download c1Init 1 "u1" "f1" "p1").1 = true ∧
    downloadingCount c1Mid = 1 ∧
    c1Mid.maxConcurrent = 1 ∧
    (start_download c1Mid 2 "u2" "f2" "p2").1 = true ∧
    (start_download c1Mid 2 "u2" "f2" "p2").2 ≠ c1Mid ∧
    downloadingCount
      (worker_mark_downloading (start_download c1Mid 2 "u2" "f2" "p2").2 2) = 2 := by
  decide

def c2Init : MgrState := mkInit [(1, freshItem "u" "f" "p")] 3

/-- Job 1 admitted, marked downloading, process registered, then paused
and cancelled — exactly the spec's cancel-a-paused-job scenario. -/
def c2Cancelled : MgrState :=
  run c2Init [.startCall 1 "u" "f" "p", .markDownloading 1, .register 1,
              .pauseCall 1, .cancelCall 1]

/-- The terminated process's stream then ends and the worker performs the
final write (lines 304-317) with the nonzero exit code of a terminated
process, and cleans up. -/
def c2Final : MgrState := run c2Cancelled [.finish 1 (-15) "t1", .cleanup 1]

/-- C2: the claim fails on the code.  `cancel_download` does set job 1 to
`cancelled`, but the worker's final write after end-of-stream checks only
`process.returncode` (line 305) with no guard on the current status, so
the terminated process's nonzero exit code overwrites `cancelled` with
`failed`: cancellation does not survive end-of-stream. -/
theorem C2_cancel_overwritten :
    (dbLookup c2Cancelled.db 1).map (fun r => r.status) = some Status.cancelled ∧
    (dbLookup c2Final.db 1).map (fun r => r.status) = some Status.failed ∧
    (dbLookup c2Final.db 1).map (fun r => r.status) ≠ some Status.cancelled := by
  decide

/-- Worker path that raises during spawn: line 266, then the `except`
branch (lines 319-324), then the `finally` block (lines 326-331). -/
def c5SpawnTrace (id : Nat) (msg : String) : List Event :=
  [.markDownloading id, .spawnFail id msg, .cleanup id]

/-- Worker path that raises while reading output: line 266, registration
(line 293), one read-loop iteration, the `except` branch, the `finally`
block. -/
def c5ReadTrace (id : Nat) (line msg : String) : List Event :=
  [.markDownloading id, .register id, .readLine id line,
   .spawnFail id msg, .cleanup id]

/-- C5: an exception inside the worker (during spawn or while reading
output) is caught and recorded as status `failed` with the exception's
message as error detail (non-empty when the message is), and on every
worker exit path the `finally` block removes the job's transient process
and thread associations, freeing its admission slot. -/
theorem C5_worker_exception (σ : MgrState) (id : Nat) (msg line : String)
    (r : DownloadItem) (h : dbLookup σ.db id = some r) (hm : msg ≠ "") :
    (∃ r1, dbLookup (run σ (c5SpawnTrace id msg)).db id = some r1 ∧
       r1.status = .failed ∧ r1.error_message = msg ∧ r1.error_message ≠ "") ∧
    (run σ (c5SpawnTrace id msg)).active = σ.active.erase id ∧
    id ∉ (run σ (c5SpawnTrace id msg)).active ∧
    id ∉ (run σ (c5SpawnTrace id msg)).threads ∧
    (∃ r2, dbLookup (run σ (c5ReadTrace id line msg)).db id = some r2 ∧
       r2.status = .failed ∧ r2.error_message = msg) ∧
    id ∉ (run σ (c5ReadTrace id line msg)).active ∧
    (∀ τ : MgrState, ∀ j : Nat,
       (worker_cleanup τ j).active = τ.active.erase j ∧
       (worker_cleanup τ j).threads = τ.threads.erase j) := by
  refine ⟨⟨{ r with status := .failed, error_message := msg }, ?_, rfl, rfl, hm⟩,
          ?_, ?_, ?_, ?_, ?_, fun τ j => ⟨rfl, rfl⟩⟩
  · simp [run, c5SpawnTrace, step, worker_mark_downloading, worker_fail,
      worker_cleanup, dbLookup_dbUpdate, h]
  · simp [run, c5SpawnTrace, step, worker_mark_downloading, worker_fail,
      worker_cleanup]
  · simp [run, c5SpawnTrace, step, worker_mark_downloading, worker_fail,
      worker_cleanup]
  · simp [run, c5SpawnTrace, step, worker_mark_downloading, worker_fail,
      worker_cleanup]
  · rcases hpe : parse_progress_event line with _ | ev
    · exact ⟨{ r with status := .failed, error_message := msg },
        by simp [run, c5ReadTrace, step, worker_mark_downloading, worker_register,
          worker_read_line, worker_fail, worker_cleanup, hpe, dbLookup_dbUpdate, h],
        rfl, rfl⟩
    · exact ⟨{ r with progress := ev.percentage, speed := ev.speed,
                      eta := ev.eta, status := .failed, error_message := msg },
        by simp [run, c5ReadTrace, step, worker_mark_downloading, worker_register,
          worker_read_line, worker_fail, worker_cleanup, hpe, dbLookup_dbUpdate, h],
        rfl, rfl⟩
  · simp [run, c5ReadTrace, step, worker_mark_downloading, worker_register,
      worker_read_line, worker_fail, worker_cleanup]

/-- C5 witness: after a spawn failure on a fresh single-job state, job 1
holds no process association any more. -/
theorem C5_worker_exception_witness :
    (1 : Nat) ∉
      (run (mkInit [(1, freshItem "u" "f" "p")] 3)
        (c5SpawnTrace 1 "spawn error")).active :=
  (C5_worker_exception (mkInit [(1, freshItem "u" "f" "p")] 3) 1 "spawn error"
    "[download]  10% of 1.00MiB" (freshItem "u" "f" "p") rfl (by decide)).2.2.1

/-- C10: invoking pause, resume or cancel on a job with no live process
association (the guard on lines 378, 388, 398 fails) is a silent no-op:
the whole manager state, in particular the job's stored record, is
unchanged and nothing is raised. -/
theorem C10_no_process_noop (σ : MgrState) (id : Nat) (h : id ∉ σ.active) :
    pause_download σ id = σ ∧ resume_download σ id = σ ∧
    cancel_download σ id = σ := by
  refine ⟨?_, ?_, ?_⟩ <;>
    simp [pause_download, resume_download, cancel_download, h]

/-- C10 witness: on a fresh state whose only job is still pending, all
three control calls on job 1 leave the state untouched. -/
theorem C10_no_process_noop_witness :
    pause_download c2Init 1 = c2Init ∧ resume_download c2Init 1 = c2Init ∧
    cancel_download c2Init 1 = c2Init :=
  C10_no_process_noop c2Init 1 (by decide)

/-- `re.search` returns the leftmost match: whenever the scan succeeds,
there is a position where the anchored matcher fires, and it fires at no
earlier position. -/
theorem scanFirst_leftmost {α : Type} (f : List Char → Option α) :
    ∀ (cs : List Char) (r : α), scanFirst f cs = some r →
      ∃ n, f (cs.drop n) = some r ∧ ∀ m, m < n → f (cs.drop m) = none := by
  intro cs
  induction cs with
  | nil =>
    intro r h
    refine ⟨0, by simpa [scanFirst] using h, ?_⟩
    intro m hm
    omega
  | cons c cs ih =>
    intro r h
    rcases hf : f (c :: cs) with _ | r0
    · have h2 : scanFirst f cs = some r := by
        simpa [scanFirst, hf] using h
      obtain ⟨n, hn, hmin⟩ := ih r h2
      refine ⟨n + 1, by simpa using hn, ?_⟩
      intro m hm
      cases m with
      | zero => simpa using hf
      | succ m2 => simpa using hmin m2 (by omega)
    · have h2 : r0 = r := by
        have := h
        simp [scanFirst, hf] at this
        exact this
      refine ⟨0, by simpa [h2] using hf, ?_⟩
      intro m hm
      omega

def c7Line : String := "[download]  45.2% of 10.00MiB at 1.21MiB/s ETA 00:12"

theorem pctValue_45_2 : pctValue ['4', '5'] ['2'] = 452 / 10 := by
  have d1 : digitsToNat ['4', '5'] = 45 := by decide
  have d2 : digitsToNat ['2'] = 2 := by decide
  simp [pctValue, d1, d2]
  norm_num

/-- C7: parsing the canonical progress line yields percentage 45.2, speed
"1.21MiB/s" and eta "00:12"; and whenever a line parses to an event, the
percentage is taken from the leftmost position at which the
number-followed-by-percent pattern matches. -/
theorem C7_parse_example_first_match :
    parse_progress_event c7Line =
      some { percentage := 452 / 10, speed := "1.21MiB/s", eta := "00:12" } ∧
    (∀ line ev, parse_progress_event line = some ev →
      ∃ n d1 d2, pctHere (line.data.drop n) = some (d1, d2) ∧
        ev.percentage = pctValue d1 d2 ∧
        ∀ m, m < n → pctHere (line.data.drop m) = none) := by
  constructor
  · have h0 : parse_progress_event c7Line =
        some { percentage := pctValue ['4', '5'] ['2'],
               speed := "1.21MiB/s", eta := "00:12" } := by rfl
    rw [h0, pctValue_45_2]
  · intro line ev h
    unfold parse_progress_event at h
    split at h
    · rw [Option.map_eq_some'] at h
      obtain ⟨pr, hpr, hev⟩ := h
      obtain ⟨n, hn, hmin⟩ := scanFirst_leftmost pctHere line.data pr hpr
      exact ⟨n, pr.1, pr.2, hn, by rw [← hev], hmin⟩
    · exact absurd h (by simp)

/-- C7 witness: the leftmost-match conjunct evaluated on the canonical
line. -/
theorem C7_parse_example_first_match_witness :
    ∃ n d1 d2, pctHere (c7Line.data.drop n) = some (d1, d2) ∧
      ({ percentage := pctValue ['4', '5'] ['2'], speed := "1.21MiB/s",
         eta := "00:12" } : ProgressEvent).percentage = pctValue d1 d2 ∧
      ∀ m, m < n → pctHere (c7Line.data.drop m) = none :=
  C7_parse_example_first_match.2 c7Line _ rfl

/-- C8: a line with no percentage token yields no event (in particular
the sample warning line, and a `[download]` banner line without a
percentage); and on a line that does parse, a missing speed or ETA token
yields an empty speed or eta field rather than an error.  (The Python
`try`/`except` around the parser corresponds to these functions being
total.) -/
theorem C8_parse_defensive :
    (∀ line, scanFirst pctHere line.data = none →
       parse_progress_event line = none) ∧
    parse_progress_event "WARNING: some unrelated message" = none ∧
    parse_progress_event "[download] Destination: video.mp4" = none ∧
    (∀ line ev, parse_progress_event line = some ev →
      (scanFirst speedHere line.data = none → ev.speed = "") ∧
      (scanFirst etaHere line.data = none → ev.eta = "")) := by
  refine ⟨?_, by decide, by decide, ?_⟩
  · intro line h
    unfold parse_progress_event
    split
    · rw [h]
      rfl
    · rfl
  · intro line ev h
    unfold parse_progress_event at h
    split at h
    · rw [Option.map_eq_some'] at h
      obtain ⟨pr, hpr, hev⟩ := h
      constructor
      · intro hs
        rw [← hev]
        simp [hs]
      · intro hs
        rw [← hev]
        simp [hs]
    · exact absurd h (by simp)

/-- C8 witness: the omission conjunct evaluated on a progress line that
carries neither a speed nor an ETA token. -/
theorem C8_parse_defensive_witness :
    ({ percentage := pctValue ['5', '0'] [], speed := "",
       eta := "" } : ProgressEvent).speed = "" ∧
    ({ percentage := pctValue ['5', '0'] [], speed := "",
       eta := "" } : ProgressEvent).eta = "" := by
  have h := C8_parse_defensive.2.2.2 "[download]  50% of 3.00MiB"
    { percentage := pctValue ['5', '0'] [], speed := "", eta := "" } rfl
  exact ⟨h.1 (by decide), h.2 (by decide)⟩

/-! ### Generic row model for `update_download` (claim C9) -/

/-- The updatable columns of the `downloads` table (lines 63-84). -/
inductive Column
  | url | title | platform | format_id | quality | file_type | file_path
  | file_size | progress | status | created_at | completed_at | speed
  | eta | error_message | thumbnail_url | duration
deriving DecidableEq

/-- An SQLite cell value. -/
inductive Value
  | text (s : String)
  | real (q : ℚ)
  | intv (n : Int)
  | null
deriving DecidableEq

/-- A table row as a valuation of the updatable columns. -/
def Row : Type := Column → Value

/-- The `SET` clause built from the keyword arguments (line 136): supplied
columns take their new value, all others keep the row's value. -/
def mergeRow (kwargs : List (Column × Value)) (r : Row) : Row :=
  fun c =>
    match kwargs.find? (fun kv => kv.1 = c) with
    | some kv => kv.2
    | none => r c

/-- `DatabaseManager.update_download` (lines 132-141) over arbitrary
column subsets. -/
def update_download (db : List (Nat × Row)) (id : Nat)
    (kwargs : List (Column × Value)) : List (Nat × Row) :=
  dbUpdate db id (mergeRow kwargs)

/-- C9: `update_download` is a partial merge — rows of other job ids are
untouched, columns not supplied keep their previous value, and a supplied
column takes exactly its supplied value. -/
theorem C9_update_partial_merge (db : List (Nat × Row)) (id j : Nat)
    (kwargs : List (Column × Value)) (c : Column) :
    (j ≠ id → dbLookup (update_download db id kwargs) j = dbLookup db j) ∧
    (c ∉ kwargs.map Prod.fst →
      (dbLookup (update_download db id kwargs) id).map (fun r => r c) =
        (dbLookup db id).map (fun r => r c)) ∧
    (∀ v r2, kwargs.find? (fun kv => kv.1 = c) = some (c, v) →
      dbLookup db id = some r2 →
      (dbLookup (update_download db id kwargs) id).map (fun r => r c) =
        some v) := by
  refine ⟨?_, ?_, ?_⟩
  · intro hj
    simp [update_download, dbLookup_dbUpdate, hj]
  · intro hc
    have hfind : kwargs.find? (fun kv => kv.1 = c) = none := by
      rw [List.find?_eq_none]
      intro kv hkv
      simp only [decide_eq_true_eq]
      intro heq
      exact hc (heq ▸ List.mem_map_of_mem Prod.fst hkv)
    simp only [update_download, dbLookup_dbUpdate, if_pos rfl]
    rcases dbLookup db id with _ | r2
    · rfl
    · simp [mergeRow, hfind]
  · intro v r2 hfind hr
    simp [update_download, dbLookup_dbUpdate, hr, mergeRow, hfind]

def c9Row : Row := fun _ => Value.null

def c9Db : List (Nat × Row) := [(1, c9Row), (2, c9Row)]

def c9Kw : List (Column × Value) := [(Column.status, Value.text "downloading")]

/-- C9 witness: updating only the status of job 1 leaves job 2's row and
job 1's progress column untouched, and sets job 1's status column. -/
theorem C9_update_partial_merge_witness :
    dbLookup (update_download c9Db 1 c9Kw) 2 = dbLookup c9Db 2 ∧
    (dbLookup (update_download c9Db 1 c9Kw) 1).map (fun r => r Column.progress) =
      (dbLookup c9Db 1).map (fun r => r Column.progress) ∧
    (dbLookup (update_download c9Db 1 c9Kw) 1).map (fun r => r Column.status) =
      some (Value.text "downloading") :=
  ⟨(C9_update_partial_merge c9Db 1 2 c9Kw Column.progress).1 (by decide),
   (C9_update_partial_merge c9Db 1 2 c9Kw Column.progress).2.1 (by decide),
   (C9_update_partial_merge c9Db 1 2 c9Kw Column.status).2.2
     (Value.text "downloading") c9Row rfl rfl⟩

theorem dbLookup_append_some {α : Type} (db1 db2 : List (Nat × α))
    (id : Nat) (r : α) (h : dbLookup db1 id = some r) :
    dbLookup (db1 ++ db2) id = some r := by
  rw [dbLookup_append, h]

/-! ### Claims C3, C4 and C6 -/

/-- A running job under observation: downloading, process registered. -/
def c3Init : MgrState :=
  { db := [(1, { freshItem "u" "f" "p" with status := Status.downloading })],
    active := {1}, threads := {1}, maxConcurrent := 3,
    history := [], spawnArgs := [] }

def c3S1 : MgrState :=
  run c3Init [.readLine 1 "[download]  50% of 10.00MiB at 1.05MiB/s ETA 00:30"]

def c3S2 : MgrState :=
  run c3S1 [.readLine 1 "[download]  10% of 10.00MiB at 1.05MiB/s ETA 00:30"]

def c3S3 : MgrState :=
  run c3S2 [.readLine 1 "[download]  150% of 10.00MiB"]

/-- C3 counterexample: while job 1 stays `downloading`, successive worker
loop iterations store percentages 50, then 10, then 150 — the stored
progress decreases (50 → 10) and exceeds 100 (150), because
`parse_progress` stores whatever percentage the line carries with no
monotonicity check and no clamping (lines 350-368). -/
theorem C3_progress_counterexample :
    (dbLookup c3S1.db 1).map (fun r => r.status) = some Status.downloading ∧
    (dbLookup c3S2.db 1).map (fun r => r.status) = some Status.downloading ∧
    (dbLookup c3S3.db 1).map (fun r => r.status) = some Status.downloading ∧
    (dbLookup c3S1.db 1).map (fun r => r.progress) = some ((50 : ℕ) : ℚ) ∧
    (dbLookup c3S2.db 1).map (fun r => r.progress) = some ((10 : ℕ) : ℚ) ∧
    (dbLookup c3S3.db 1).map (fun r => r.progress) = some ((150 : ℕ) : ℚ) ∧
    ¬ (((50 : ℕ) : ℚ) ≤ ((10 : ℕ) : ℚ)) ∧
    ¬ (((150 : ℕ) : ℚ) ≤ 100) := by
  decide

/-- All stored progress values are nonnegative. -/
def progressNonneg (db : List (Nat × DownloadItem)) : Prop :=
  ∀ p ∈ db, 0 ≤ p.2.progress

/-- C3 amended: the stored progress is the most recently parsed
percentage; it is always nonnegative (and this is preserved by every
event), it need not be monotone nor bounded by 100, and the only
transition that moves a record into `completed` sets its progress to
exactly 100. -/
theorem C3_progress_amended :
    (∀ line ev, parse_progress_event line = some ev → 0 ≤ ev.percentage) ∧
    (∀ σ e, progressNonneg σ.db → progressNonneg (step σ e).db) ∧
    (∀ σ e id r r2, dbLookup σ.db id = some r →
      dbLookup (step σ e).db id = some r2 →
      r.status ≠ .completed → r2.status = .completed →
      r2.progress = 100) := by
  refine ⟨parse_percentage_nonneg, ?_, ?_⟩
  · intro σ e h
    rcases step_db_shape σ e with hs | ⟨id0, url, fmt, path, hs⟩ | ⟨id0, f, hs, hg⟩
    · rw [hs]
      exact h
    · rw [hs]
      intro p hp
      rcases List.mem_append.mp hp with hp | hp
      · exact h p hp
      · simp only [List.mem_singleton] at hp
        rw [hp]
        norm_num [freshItem]
    · rw [hs]
      intro p hp
      rcases mem_dbUpdate _ _ _ p hp with hp | ⟨q, hq, rfl⟩
      · exact h p hp
      · exact (hg q.2).1 (h q hq)
  · intro σ e id r r2 hr hr2 hrs hr2s
    rcases step_db_shape σ e with hs | ⟨id0, url, fmt, path, hs⟩ | ⟨id0, f, hs, hg⟩
    · rw [hs, hr] at hr2
      obtain rfl := Option.some.inj hr2
      exact absurd hr2s hrs
    · rw [hs, dbLookup_append_some σ.db _ id r hr] at hr2
      obtain rfl := Option.some.inj hr2
      exact absurd hr2s hrs
    · rw [hs, dbLookup_dbUpdate] at hr2
      by_cases hid : id = id0
      · rw [if_pos hid, hr, Option.map_some'] at hr2
        obtain rfl := Option.some.inj hr2
        rcases (hg r).2 hr2s with ⟨hp, _⟩ | ⟨hst, _⟩
        · exact hp
        · exact absurd (hst.symm.trans hr2s) hrs
      · rw [if_neg hid, hr] at hr2
        obtain rfl := Option.some.inj hr2
        exact absurd hr2s hrs

/-- C3 witness: the nonnegativity conjunct evaluated on a parsed line. -/
theorem C3_progress_amended_witness :
    0 ≤ ({ percentage := pctValue ['5', '0'] [], speed := "",
           eta := "" } : ProgressEvent).percentage :=
  C3_progress_amended.1 "[download]  50% of 3.00MiB" _ rfl

/-- The direction of the §3 `completed_at` invariant that does hold: a
completed record has its completion timestamp set. -/
def completedAtSet (db : List (Nat × DownloadItem)) : Prop :=
  ∀ p ∈ db, p.2.status = Status.completed → p.2.completed_at ≠ none

/-- C4 amended: at end-of-stream, exit code 0 marks the job completed with
progress 100 and the completion timestamp, any other exit code marks it
failed with the generic detail (and leaves `completed_at` as it was); and
every event preserves "status = completed → completed_at is set".  The
converse direction of the claimed iff is false (see the counterexample):
`completed_at` survives later transitions out of `completed`. -/
theorem C4_finish_exit_code (σ : MgrState) (id : Nat) (code : Int)
    (now : String) (r : DownloadItem) (h : dbLookup σ.db id = some r) :
    (code = 0 → dbLookup (worker_finish σ id code now).db id =
       some { r with status := .completed, progress := 100,
                     completed_at := some now }) ∧
    (code ≠ 0 → dbLookup (worker_finish σ id code now).db id =
       some { r with status := .failed,
                     error_message := "Download failed" }) ∧
    (∀ τ e, completedAtSet τ.db → completedAtSet (step τ e).db) := by
  refine ⟨?_, ?_, ?_⟩
  · intro hc
    simp [worker_finish, hc, dbLookup_dbUpdate, h]
  · intro hc
    simp [worker_finish, hc, dbLookup_dbUpdate, h]
  · intro τ e hinv
    rcases step_db_shape τ e with hs | ⟨id0, url, fmt, path, hs⟩ | ⟨id0, f, hs, hg⟩
    · rw [hs]
      exact hinv
    · rw [hs]
      intro p hp
      rcases List.mem_append.mp hp with hp | hp
      · exact hinv p hp
      · simp only [List.mem_singleton] at hp
        rw [hp]
        intro hc
        simp [freshItem] at hc
    · rw [hs]
      intro p hp
      rcases mem_dbUpdate _ _ _ p hp with hp | ⟨q, hq, rfl⟩
      · exact hinv p hp
      · intro hc
        rcases (hg q.2).2 hc with ⟨_, hca⟩ | ⟨hst, hca⟩
        · exact hca
        · rw [hca]
          exact hinv q hq (hst.symm.trans hc)

/-- C4 witness: the zero-exit-code conjunct evaluated on a fresh job. -/
theorem C4_finish_exit_code_witness :
    dbLookup (worker_finish (mkInit [(3, freshItem "u" "f" "p")] 3)
        3 0 "t9").db 3 =
      some { freshItem "u" "f" "p" with
             status := Status.completed,
             progress := 100, completed_at := some "t9" } :=
  (C4_finish_exit_code (mkInit [(3, freshItem "u" "f" "p")] 3) 3 0 "t9"
    (freshItem "u" "f" "p") rfl).1 rfl

/-- Job 1 completes successfully; it is then retried (`retry_download`
checks only record existence, line 409, not that the status is failed)
and the retry attempt fails during spawn. -/
def c4End : MgrState :=
  run (mkInit [(1, freshItem "u" "f" "p")] 3)
    [.startCall 1 "u" "f" "p", .markDownloading 1, .register 1,
     .finish 1 0 "t0", .cleanup 1,
     .retryCall 1, .markDownloading 1, .spawnFail 1 "spawn error",
     .cleanup 1]

/-- C4 counterexample: after a completed job is retried and the retry
fails, the record has status `failed` while `completed_at` is still set to
the old completion timestamp — the claimed "completed_at is set iff
status = completed" is false on the code (no write ever clears
`completed_at`). -/
theorem C4_completed_at_not_iff :
    (dbLookup c4End.db 1).map (fun r => r.status) = some Status.failed ∧
    (dbLookup c4End.db 1).map (fun r => r.completed_at) =
      some (some "t0") ∧
    (dbLookup c4End.db 1).map (fun r => r.completed_at) ≠ some none := by
  decide

/-- A failed record as `retry_download` finds it. -/
def c6Item : DownloadItem :=
  { freshItem "u" "f" "p" with
    status := Status.failed,
    error_message := "Download failed" }

def c6Init : MgrState := mkInit [(1, c6Item)] 3

def c6End : MgrState := run c6Init [.retryCall 1, .markDownloading 1]

/-- C6 counterexample: retrying job 1 re-invokes start with its stored
url/format/path and the worker moves the record straight from `failed` to
`downloading`; no `pending` status is ever written (the ghost history of
status writes contains only `downloading`), contradicting the claimed
re-entry "through pending and then downloading". -/
theorem C6_retry_skips_pending :
    (dbLookup c6Init.db 1).map (fun r => r.status) = some Status.failed ∧
    (dbLookup c6End.db 1).map (fun r => r.status) =
      some Status.downloading ∧
    c6End.history = [(1, Status.downloading)] ∧
    (1, Status.pending) ∉ c6End.history ∧
    (dbLookup c6End.db 1).map (fun r => (r.url, r.format_id, r.file_path)) =
      some ("u", "f", "p") ∧
    c6End.spawnArgs = [(1, "u", "f", "p")] := by
  decide

/-- C6 amended: for a job with status failed whose record exists, when a
slot is free, retry re-invokes the start sequence with the job's stored
url, format_id and file_path, and the worker transitions the record
directly from `failed` to `downloading` (the only status written), without
mutating url/format_id/file_path. -/
theorem C6_retry_direct_to_downloading (σ : MgrState) (id : Nat)
    (r : DownloadItem) (h : dbLookup σ.db id = some r)
    (_hst : r.status = .failed) (hcap : σ.active.card < σ.maxConcurrent) :
    (retry_download σ id).spawnArgs =
      (id, r.url, r.format_id, r.file_path) :: σ.spawnArgs ∧
    dbLookup (worker_mark_downloading (retry_download σ id) id).db id =
      some { r with status := .downloading } ∧
    (worker_mark_downloading (retry_download σ id) id).history =
      (id, Status.downloading) :: σ.history := by
  have hnot : ¬ (σ.active.card ≥ σ.maxConcurrent) := by omega
  refine ⟨?_, ?_, ?_⟩ <;>
    simp [retry_download, h, start_download, hnot, worker_mark_downloading,
      dbLookup_dbUpdate]

/-- C6 witness: the direct failed-to-downloading transition on the
concrete failed record. -/
theorem C6_retry_direct_to_downloading_witness :
    dbLookup (worker_mark_downloading (retry_download c6Init 1) 1).db 1 =
      some { c6Item with status := Status.downloading } :=
  (C6_retry_direct_to_downloading c6Init 1 c6Item rfl rfl (by decide)).2.1

end YT
